import Mathlib

/-
  Verification of the deep-c numerical core (matrix ops, MLP back-propagation,
  Adam optimizer, DDPG replay memory and training step).

  The C code is shallowly embedded over exact rationals (ℚ): every `double`
  becomes a `ℚ`, and the libm functions `sqrt` and `exp`, which the code calls
  as external black boxes, become explicit function parameters.  A matrix
  `(rows, columns, data)` models the C `Matrix` struct whose flat row-major
  buffer stores `data[row * columns + col]`; we represent the buffer as a
  two-index function and guard every write with the exact loop bounds the C
  code uses, so out-of-range entries keep their previous values, as in C.
-/

namespace DeepC

/-- Embeds `struct Matrix` from matrix.h: a fixed shape plus the element
function standing for the flat row-major buffer (`MATRIX(m, r, c)` is
`m.data[r * m.columns + c]`, here `m.data r c`). -/
structure Mat where
  rows : ℕ
  columns : ℕ
  data : ℕ → ℕ → ℚ

/-- matrix.c `matrix_copy(dst, src)`: copies `dst.rows * dst.columns` flat
elements of `src` into `dst`; at call sites the shapes coincide, so in-range
element `(i, j)` of the result is `src.data i j`. -/
def matrix_copy (dst src : Mat) : Mat :=
  ⟨dst.rows, dst.columns, fun i j =>
    if i < dst.rows ∧ j < dst.columns then src.data i j else dst.data i j⟩

/-- matrix.c `matrix_fill(matrix, value)`: sets every element to `value`. -/
def matrix_fill (m : Mat) (value : ℚ) : Mat :=
  ⟨m.rows, m.columns, fun i j =>
    if i < m.rows ∧ j < m.columns then value else m.data i j⟩

/-- matrix.c `matrix_difference(matrix1, matrix2, result)`: elementwise
`matrix1 - matrix2` written into `result`. -/
def matrix_difference (m1 m2 result : Mat) : Mat :=
  ⟨result.rows, result.columns, fun i j =>
    if i < result.rows ∧ j < result.columns then m1.data i j - m2.data i j
    else result.data i j⟩

/-- matrix.c `matrix_multiply(matrix, value)`: in-place scalar multiply. -/
def matrix_multiply (m : Mat) (value : ℚ) : Mat :=
  ⟨m.rows, m.columns, fun i j =>
    if i < m.rows ∧ j < m.columns then m.data i j * value else m.data i j⟩

/-- matrix.c `matrix_divide(matrix, value)`: in-place scalar divide. -/
def matrix_divide (m : Mat) (value : ℚ) : Mat :=
  ⟨m.rows, m.columns, fun i j =>
    if i < m.rows ∧ j < m.columns then m.data i j / value else m.data i j⟩

/-- matrix.c `matrix_odot(dst, src)`: in-place Hadamard product over the
flat range of `dst`. -/
def matrix_odot (dst src : Mat) : Mat :=
  ⟨dst.rows, dst.columns, fun i j =>
    if i < dst.rows ∧ j < dst.columns then dst.data i j * src.data i j
    else dst.data i j⟩

/-- matrix.c `matrix_add(dst, src)`: in-place elementwise addition. -/
def matrix_add (dst src : Mat) : Mat :=
  ⟨dst.rows, dst.columns, fun i j =>
    if i < dst.rows ∧ j < dst.columns then dst.data i j + src.data i j
    else dst.data i j⟩

/-- matrix.c `matrix_apply(matrix, f)`: applies `f` to every element. -/
def matrix_apply (m : Mat) (f : ℚ → ℚ) : Mat :=
  ⟨m.rows, m.columns, fun i j =>
    if i < m.rows ∧ j < m.columns then f (m.data i j) else m.data i j⟩

/-- matrix.c `matrix_dot(matrix1, matrix2, result)`: for every in-range
`(row, col)` of `result`, accumulates `sum_k matrix1[row][k] * matrix2[k][col]`
with `k` running over `matrix1.columns`, exactly as the pointer walk does. -/
def matrix_dot (m1 m2 result : Mat) : Mat :=
  ⟨result.rows, result.columns, fun i j =>
    if i < result.rows ∧ j < result.columns then
      ∑ k ∈ Finset.range m1.columns, m1.data i k * m2.data k j
    else result.data i j⟩

/-- matrix.c `matrix_transpose(matrix, result)`: writes
`result[col][row] = matrix[row][col]` for every in-range `(row, col)` of
`matrix`; positions of `result` outside the transposed range keep their
old value. -/
def matrix_transpose (m result : Mat) : Mat :=
  ⟨result.rows, result.columns, fun i j =>
    if i < m.columns ∧ j < m.rows then m.data j i else result.data i j⟩

/-- matrix.c `matrix_dot_transpose(matrix1, matrix2, result)`: the inner
pointer walk starts at row `col` of `matrix1` and column `row` of `matrix2`
and writes `result.data[row * result.columns + col]`, so in-range element
`(i, j)` of the result is `sum_k matrix1[j][k] * matrix2[k][i]`. -/
def matrix_dot_transpose (m1 m2 result : Mat) : Mat :=
  ⟨result.rows, result.columns, fun i j =>
    if i < result.rows ∧ j < result.columns then
      ∑ k ∈ Finset.range m1.columns, m1.data j k * m2.data k i
    else result.data i j⟩

/-- matrix.c `matrix_sum_rows_transpose(matrix, result)`: column `col` of
`matrix` is summed into `result[col][0]`, and that first result column is then
replicated into every further column of `result`. -/
def matrix_sum_rows_transpose (m result : Mat) : Mat :=
  ⟨result.rows, result.columns, fun i j =>
    if i < m.columns ∧ j < result.columns then
      ∑ r ∈ Finset.range m.rows, m.data r i
    else result.data i j⟩

/-- activation.c `activation_sigmoid`: for `x >= 0` it returns
`1.0 / (1 + exp(-x))`; for `x < 0` it returns `1.0 - (1.0 / 1 + exp(x))`,
where C operator precedence parses the parenthesis as `(1.0 / 1) + exp(x)`.
The libm `exp` is passed in as the function parameter `expf`. -/
def activation_sigmoid (expf : ℚ → ℚ) (x : ℚ) : ℚ :=
  if x ≥ 0 then 1 / (1 + expf (-x)) else 1 - (1 / 1 + expf x)

/-- random.c `deepc_random_double(min, max)`: returns
`((double)rand() / RAND_MAX) * (max - min) + min`, where `r` stands for the
value returned by `rand()` and `randMax` for the platform `RAND_MAX`. -/
def deepc_random_double (randMax : ℕ) (mn mx : ℚ) (r : ℕ) : ℚ :=
  ((r : ℚ) / (randMax : ℚ)) * (mx - mn) + mn

/-- ddpg.c `ddpg_data_copy(dst, src, length)`: copies `length` leading
elements of `src` over `dst`, leaving the rest of `dst` untouched. -/
def ddpg_data_copy (dst src : ℕ → ℚ) (length : ℕ) : ℕ → ℚ :=
  fun k => if k < length then src k else dst k

/-- One observation as passed to `ddpg_observe`: the executed action, the
obtained reward, the resulting state and the terminal flag (a C `int`). -/
structure Observation where
  action : ℕ → ℚ
  reward : ℚ
  state : ℕ → ℚ
  terminal : ℤ

/-- The replay-memory related fields of `struct DDPG` from ddpg.h: the sizes,
the ring buffer `memory` with its `memorySize`, `memoryUsed` and `memoryIdx`
counters, and the `lastState` buffer guarded by `lastStateValid`. -/
structure DDPGMem where
  stateSize : ℕ
  actionSize : ℕ
  memory : Mat
  memorySize : ℕ
  memoryUsed : ℕ
  memoryIdx : ℕ
  lastState : ℕ → ℚ
  lastStateValid : Bool

/-- The memory write performed by a non-priming `ddpg_observe` call: the
tuple `(lastState, action, reward, state, terminal flag)` goes into row
`memoryIdx` with the column layout of the C code (incremental `col +=`
offsets: states at `[0, S)`, action at `[S, S + A)`, reward at `S + A`, next
state at `[S + A + 1, 2S + A + 1)`, terminal flag at `2S + A + 1`). -/
def ddpg_memory_write (d : DDPGMem) (action : ℕ → ℚ) (reward : ℚ)
    (state : ℕ → ℚ) (terminal : ℤ) : ℕ → ℕ → ℚ := fun r c =>
  if r = d.memoryIdx then
    if c < d.stateSize then d.lastState c
    else if c < d.stateSize + d.actionSize then action (c - d.stateSize)
    else if c = d.stateSize + d.actionSize then reward
    else if c < 2 * d.stateSize + d.actionSize + 1 then
      state (c - (d.stateSize + d.actionSize + 1))
    else if c = 2 * d.stateSize + d.actionSize + 1 then
      (if 0 < terminal then 1 else 0)
    else d.memory.data r c
  else d.memory.data r c

/-- ddpg.c `ddpg_observe`: when `lastStateValid` is unset, only primes
`lastState`; otherwise writes the observation tuple into row `memoryIdx`,
stores `state` as `lastState`, advances `memoryIdx` modulo `memorySize`, and
saturates `memoryUsed` at `memorySize`. -/
def ddpg_observe (d : DDPGMem) (action : ℕ → ℚ) (reward : ℚ)
    (state : ℕ → ℚ) (terminal : ℤ) : DDPGMem :=
  if d.lastStateValid = false then
    { d with
      lastState := ddpg_data_copy d.lastState state d.stateSize
      lastStateValid := true }
  else
    { d with
      memory := ⟨d.memory.rows, d.memory.columns,
        ddpg_memory_write d action reward state terminal⟩
      lastState := ddpg_data_copy d.lastState state d.stateSize
      memoryIdx := (d.memoryIdx + 1) % d.memorySize
      memoryUsed :=
        if d.memoryUsed < d.memorySize then d.memoryUsed + 1 else d.memoryUsed }

/-- Folds a sequence of `ddpg_observe` calls over the agent state, in call
order. -/
def ddpg_observe_list (d : DDPGMem) : List Observation → DDPGMem
  | [] => d
  | o :: rest => ddpg_observe_list (ddpg_observe d o.action o.reward o.state o.terminal) rest

/-- ddpg.c `ddpg_train`, lines computing the critic errors from the Bellman
equation: for each batch slot `i`, `reward` is read from memory column
`stateSize + actionSize` and `terminal` from column
`2 * stateSize + actionSize + 1` of the sampled row, and
`criticErrors[i][0]` is the raw Q value when `terminal > 0`, else the TD
error against `reward + gamma * criticTargetOutput[i][0]`. -/
def ddpg_compute_critic_errors (memory : Mat) (batchIndices : ℕ → ℕ)
    (criticOutput criticTargetOutput criticErrors : Mat)
    (gamma : ℚ) (stateSize actionSize batchSize : ℕ) : Mat :=
  ⟨criticErrors.rows, criticErrors.columns, fun i j =>
    if i < batchSize ∧ j = 0 then
      let reward := memory.data (batchIndices i) (stateSize + actionSize)
      let terminal := memory.data (batchIndices i) (2 * stateSize + actionSize + 1)
      if 0 < terminal then criticOutput.data i 0
      else criticOutput.data i 0 - (reward + gamma * criticTargetOutput.data i 0)
    else criticErrors.data i j⟩

/-- C7: for conformant shapes (`matrix1.columns = matrix2.rows`, `result`
shapes as documented), every in-range element satisfies
`dot_transpose(A,B)[i][j] = dot(A,B)[j][i]`, and `dot_transpose` agrees
elementwise with `matrix_dot` followed by `matrix_transpose`; over the exact
embedding both sides are the identical sum over `k < A.columns`, so the
equality is exact. -/
theorem dot_transpose_eq_transpose_dot
    (A B R1 R2 : Mat) (i j : ℕ)
    (hAB : A.columns = B.rows)
    (hR1r : R1.rows = B.columns) (hR1c : R1.columns = A.rows)
    (hR2r : R2.rows = A.rows) (hR2c : R2.columns = B.columns)
    (hi : i < B.columns) (hj : j < A.rows) :
    (matrix_dot_transpose A B R1).data i j = (matrix_dot A B R2).data j i ∧
    (matrix_dot_transpose A B R1).data i j
      = (matrix_transpose (matrix_dot A B R2) R1).data i j := by
  constructor
  · simp only [matrix_dot_transpose, matrix_dot]
    rw [if_pos ⟨hR1r ▸ hi, hR1c ▸ hj⟩, if_pos ⟨hR2r ▸ hj, hR2c ▸ hi⟩]
  · simp only [matrix_dot_transpose, matrix_dot, matrix_transpose]
    rw [if_pos ⟨hR1r ▸ hi, hR1c ▸ hj⟩]
    rw [if_pos (show i < R2.columns ∧ j < R2.rows from ⟨hR2c ▸ hi, hR2r ▸ hj⟩)]
    rw [if_pos (show j < R2.rows ∧ i < R2.columns from ⟨hR2r ▸ hj, hR2c ▸ hi⟩)]

/-- C7 witness: instantiates the dot-transpose/dot agreement on concrete
2-by-2 matrices at element (0, 1). -/
theorem dot_transpose_eq_transpose_dot_witness :
    (matrix_dot_transpose ⟨2, 2, fun i j => (i : ℚ) + 2 * j⟩
        ⟨2, 2, fun i j => (i : ℚ) * j + 1⟩ ⟨2, 2, fun _ _ => 0⟩).data 0 1
      = (matrix_dot ⟨2, 2, fun i j => (i : ℚ) + 2 * j⟩
        ⟨2, 2, fun i j => (i : ℚ) * j + 1⟩ ⟨2, 2, fun _ _ => 0⟩).data 1 0 ∧
    (matrix_dot_transpose ⟨2, 2, fun i j => (i : ℚ) + 2 * j⟩
        ⟨2, 2, fun i j => (i : ℚ) * j + 1⟩ ⟨2, 2, fun _ _ => 0⟩).data 0 1
      = (matrix_transpose (matrix_dot ⟨2, 2, fun i j => (i : ℚ) + 2 * j⟩
        ⟨2, 2, fun i j => (i : ℚ) * j + 1⟩ ⟨2, 2, fun _ _ => 0⟩)
        ⟨2, 2, fun _ _ => 0⟩).data 0 1 :=
  dot_transpose_eq_transpose_dot _ _ _ _ 0 1 rfl rfl rfl rfl rfl
    (by decide) (by decide)

/-- C9: `activation_sigmoid` returns `1 - (1/1 + exp(x))`, which collapses to
`-exp(x)`, for every negative input, and the true logistic form
`1 / (1 + exp(-x))` for every nonnegative input; this holds for every
function supplied for libm `exp`. -/
theorem activation_sigmoid_negative_eq_neg_exp (expf : ℚ → ℚ) (x : ℚ) :
    (x < 0 → activation_sigmoid expf x = -(expf x)) ∧
    (0 ≤ x → activation_sigmoid expf x = 1 / (1 + expf (-x))) := by
  constructor
  · intro hx
    rw [activation_sigmoid, if_neg (by linarith)]
    ring
  · intro hx
    rw [activation_sigmoid, if_pos hx]

/-- C9 witness: with `exp` instantiated to squaring, the negative branch at
`x = -2` returns `-4` and the nonnegative branch at `x = 3` returns `1/10`. -/
theorem activation_sigmoid_negative_eq_neg_exp_witness :
    activation_sigmoid (fun q => q * q) (-2) = -((-2 : ℚ) * (-2)) ∧
    activation_sigmoid (fun q => q * q) 3 = 1 / (1 + (-3 : ℚ) * (-3)) :=
  ⟨(activation_sigmoid_negative_eq_neg_exp (fun q => q * q) (-2)).1 (by norm_num),
   (activation_sigmoid_negative_eq_neg_exp (fun q => q * q) 3).2 (by norm_num)⟩

/-- C10 counterexample: with the glibc `RAND_MAX = 2147483647`, `min = 0`,
`max = 1`, the draw `rand() = RAND_MAX` makes `deepc_random_double` return
exactly `max = 1`, so the result is not strictly less than `max` for every
possible `rand()` value. -/
theorem deepc_random_double_hits_max :
    deepc_random_double 2147483647 0 1 2147483647 = 1 ∧
    ¬ deepc_random_double 2147483647 0 1 2147483647 < 1 := by
  constructor
  · rw [deepc_random_double]
    norm_num
  · rw [deepc_random_double]
    norm_num

/-- C10 amended: for `min < max` and any `rand()` draw `r` with
`0 ≤ r ≤ RAND_MAX` (and `RAND_MAX > 0`), the result lies in the closed
interval `[min, max]`, and it is strictly below `max` whenever
`r < RAND_MAX`; the right endpoint is attained exactly at `r = RAND_MAX`. -/
theorem deepc_random_double_range (randMax : ℕ) (mn mx : ℚ) (r : ℕ)
    (hM : 0 < randMax) (hr : r ≤ randMax) (hmm : mn < mx) :
    mn ≤ deepc_random_double randMax mn mx r ∧
    deepc_random_double randMax mn mx r ≤ mx ∧
    (r < randMax → deepc_random_double randMax mn mx r < mx) := by
  have hMQ : (0 : ℚ) < (randMax : ℚ) := by exact_mod_cast hM
  have hrQ : (r : ℚ) ≤ (randMax : ℚ) := by exact_mod_cast hr
  have hfrac0 : (0 : ℚ) ≤ (r : ℚ) / (randMax : ℚ) :=
    div_nonneg (by positivity) (le_of_lt hMQ)
  have hfrac1 : (r : ℚ) / (randMax : ℚ) ≤ 1 := by
    rw [div_le_one hMQ]; exact hrQ
  have hspan : (0 : ℚ) < mx - mn := by linarith
  refine ⟨?_, ?_, ?_⟩
  · rw [deepc_random_double]
    nlinarith
  · rw [deepc_random_double]
    nlinarith
  · intro hlt
    have hltQ : (r : ℚ) < (randMax : ℚ) := by exact_mod_cast hlt
    have hfrac : (r : ℚ) / (randMax : ℚ) < 1 := by
      rw [div_lt_one hMQ]; exact hltQ
    rw [deepc_random_double]
    nlinarith

/-- C10 amended witness: with `RAND_MAX = 7`, `min = -1`, `max = 3`, the
draw `r = 2` yields a value that is at least `-1`, at most `3`, and strictly
below `3`. -/
theorem deepc_random_double_range_witness :
    -1 ≤ deepc_random_double 7 (-1) 3 2 ∧
    deepc_random_double 7 (-1) 3 2 ≤ 3 ∧
    (2 < 7 → deepc_random_double 7 (-1) 3 2 < 3) :=
  deepc_random_double_range 7 (-1) 3 2 (by decide) (by decide) (by norm_num)

/-- C1: in the critic-error stage of `ddpg_train(gamma)`, every sampled batch
slot `i` gets `criticErrors[i] = criticOutput[i]` when the stored terminal
flag (memory column `2S + A + 1`) is positive, and otherwise
`criticErrors[i] = criticOutput[i] - (reward + gamma * criticTargetOutput[i])`
with the reward read from memory column `S + A`. -/
theorem ddpg_train_bellman_errors (memory : Mat) (batchIndices : ℕ → ℕ)
    (criticOutput criticTargetOutput criticErrors : Mat)
    (gamma : ℚ) (S A B : ℕ) (i : ℕ) (hi : i < B) :
    (0 < memory.data (batchIndices i) (2 * S + A + 1) →
      (ddpg_compute_critic_errors memory batchIndices criticOutput
        criticTargetOutput criticErrors gamma S A B).data i 0
        = criticOutput.data i 0) ∧
    (¬ 0 < memory.data (batchIndices i) (2 * S + A + 1) →
      (ddpg_compute_critic_errors memory batchIndices criticOutput
        criticTargetOutput criticErrors gamma S A B).data i 0
        = criticOutput.data i 0
          - (memory.data (batchIndices i) (S + A)
             + gamma * criticTargetOutput.data i 0)) := by
  constructor
  · intro ht
    simp only [ddpg_compute_critic_errors]
    rw [if_pos ⟨hi, trivial⟩, if_pos ht]
  · intro ht
    simp only [ddpg_compute_critic_errors]
    rw [if_pos ⟨hi, trivial⟩, if_neg ht]

/-- C1 witness: a concrete batch of size 2 over a 1-dimensional state and
action: slot 0 samples a terminal row and returns the raw Q value, slot 1
samples a non-terminal row and returns the TD error. -/
theorem ddpg_train_bellman_errors_witness :
    (0 < (⟨2, 5, fun r c => if r = 0 ∧ c = 4 then 1 else if c = 2 then 3 else 0⟩ : Mat).data
        ((fun i => i) 0) (2 * 1 + 1 + 1) →
      (ddpg_compute_critic_errors
        ⟨2, 5, fun r c => if r = 0 ∧ c = 4 then 1 else if c = 2 then 3 else 0⟩
        (fun i => i) ⟨2, 1, fun i _ => (i : ℚ) + 5⟩ ⟨2, 1, fun _ _ => 7⟩
        ⟨2, 1, fun _ _ => 0⟩ (1/2) 1 1 2).data 0 0
        = (⟨2, 1, fun i _ => (i : ℚ) + 5⟩ : Mat).data 0 0) ∧
    (¬ 0 < (⟨2, 5, fun r c => if r = 0 ∧ c = 4 then 1 else if c = 2 then 3 else 0⟩ : Mat).data
        ((fun i => i) 0) (2 * 1 + 1 + 1) →
      (ddpg_compute_critic_errors
        ⟨2, 5, fun r c => if r = 0 ∧ c = 4 then 1 else if c = 2 then 3 else 0⟩
        (fun i => i) ⟨2, 1, fun i _ => (i : ℚ) + 5⟩ ⟨2, 1, fun _ _ => 7⟩
        ⟨2, 1, fun _ _ => 0⟩ (1/2) 1 1 2).data 0 0
        = (⟨2, 1, fun i _ => (i : ℚ) + 5⟩ : Mat).data 0 0
          - ((⟨2, 5, fun r c => if r = 0 ∧ c = 4 then 1 else if c = 2 then 3 else 0⟩ : Mat).data
              ((fun i => i) 0) (1 + 1)
             + (1/2) * (⟨2, 1, fun _ _ => 7⟩ : Mat).data 0 0)) :=
  ddpg_train_bellman_errors
    ⟨2, 5, fun r c => if r = 0 ∧ c = 4 then 1 else if c = 2 then 3 else 0⟩
    (fun i => i) ⟨2, 1, fun i _ => (i : ℚ) + 5⟩ ⟨2, 1, fun _ _ => 7⟩
    ⟨2, 1, fun _ _ => 0⟩ (1/2) 1 1 2 0 (by decide)

/-- C5: an observe call made while `lastStateValid` is false copies the state
into `lastState`, sets the flag, and leaves the replay memory, `memoryUsed`
and `memoryIdx` untouched. -/
theorem ddpg_observe_priming_frame (d : DDPGMem) (action : ℕ → ℚ)
    (reward : ℚ) (state : ℕ → ℚ) (terminal : ℤ)
    (h : d.lastStateValid = false) :
    (ddpg_observe d action reward state terminal).memory = d.memory ∧
    (ddpg_observe d action reward state terminal).memoryUsed = d.memoryUsed ∧
    (ddpg_observe d action reward state terminal).memoryIdx = d.memoryIdx ∧
    (ddpg_observe d action reward state terminal).lastStateValid = true ∧
    (∀ k, k < d.stateSize →
      (ddpg_observe d action reward state terminal).lastState k = state k) := by
  rw [ddpg_observe, if_pos h]
  refine ⟨rfl, rfl, rfl, rfl, ?_⟩
  intro k hk
  simp only [ddpg_data_copy]
  rw [if_pos hk]

/-- C5 witness: the first-observe priming scenario of the spec — a fresh
2-dimensional-state agent observes `([0], 0, [0.5, 0.1], 0)`; the memory and
its counters are unchanged (`used` stays `0`) and `lastState` becomes
`[0.5, 0.1]`. -/
theorem ddpg_observe_priming_frame_witness :
    (ddpg_observe
      ⟨2, 1, ⟨4, 7, fun _ _ => 0⟩, 4, 0, 0, fun _ => 0, false⟩
      (fun _ => 0) 0 (fun k => if k = 0 then 1/2 else 1/10) 0).memory
      = (⟨2, 1, ⟨4, 7, fun _ _ => 0⟩, 4, 0, 0, fun _ => 0, false⟩ : DDPGMem).memory ∧
    (ddpg_observe
      ⟨2, 1, ⟨4, 7, fun _ _ => 0⟩, 4, 0, 0, fun _ => 0, false⟩
      (fun _ => 0) 0 (fun k => if k = 0 then 1/2 else 1/10) 0).memoryUsed = 0 ∧
    (ddpg_observe
      ⟨2, 1, ⟨4, 7, fun _ _ => 0⟩, 4, 0, 0, fun _ => 0, false⟩
      (fun _ => 0) 0 (fun k => if k = 0 then 1/2 else 1/10) 0).memoryIdx = 0 ∧
    (ddpg_observe
      ⟨2, 1, ⟨4, 7, fun _ _ => 0⟩, 4, 0, 0, fun _ => 0, false⟩
      (fun _ => 0) 0 (fun k => if k = 0 then 1/2 else 1/10) 0).lastStateValid = true ∧
    (∀ k, k < 2 →
      (ddpg_observe
        ⟨2, 1, ⟨4, 7, fun _ _ => 0⟩, 4, 0, 0, fun _ => 0, false⟩
        (fun _ => 0) 0 (fun k => if k = 0 then 1/2 else 1/10) 0).lastState k
        = (if k = 0 then (1 : ℚ)/2 else 1/10)) :=
  ddpg_observe_priming_frame
    ⟨2, 1, ⟨4, 7, fun _ _ => 0⟩, 4, 0, 0, fun _ => 0, false⟩
    (fun _ => 0) 0 (fun k => if k = 0 then 1/2 else 1/10) 0 rfl

/-- Folding observations over `L1 ++ L2` is folding `L2` after `L1`. -/
theorem ddpg_observe_list_append (L1 L2 : List Observation) :
    ∀ d : DDPGMem,
      ddpg_observe_list d (L1 ++ L2)
        = ddpg_observe_list (ddpg_observe_list d L1) L2 := by
  induction L1 with
  | nil => intro d; rfl
  | cons o rest ih =>
    intro d
    simp only [List.cons_append, ddpg_observe_list]
    exact ih _

/-- Field bookkeeping of one non-priming `ddpg_observe` call. -/
theorem ddpg_observe_valid_fields (d : DDPGMem) (a : ℕ → ℚ) (r : ℚ)
    (s : ℕ → ℚ) (t : ℤ) (hv : d.lastStateValid = true) :
    (ddpg_observe d a r s t).lastStateValid = true ∧
    (ddpg_observe d a r s t).memorySize = d.memorySize ∧
    (ddpg_observe d a r s t).stateSize = d.stateSize ∧
    (ddpg_observe d a r s t).actionSize = d.actionSize ∧
    (ddpg_observe d a r s t).memoryUsed
      = (if d.memoryUsed < d.memorySize then d.memoryUsed + 1
         else d.memoryUsed) ∧
    (ddpg_observe d a r s t).memoryIdx = (d.memoryIdx + 1) % d.memorySize ∧
    (ddpg_observe d a r s t).memory.data = ddpg_memory_write d a r s t := by
  rw [ddpg_observe, if_neg (by rw [hv]; exact fun h => Bool.noConfusion h)]
  exact ⟨hv, rfl, rfl, rfl, rfl, rfl, rfl⟩

/-- Counter invariant of the replay ring under a run of non-priming observe
calls: starting from `used = min n M` and `idx = n mod M`, after `L` more
observations `used = min (n + |L|) M` and `idx = (n + |L|) mod M`, and the
architecture fields and the valid flag are preserved. -/
theorem ddpg_observe_list_counters (L : List Observation) :
    ∀ (d : DDPGMem) (n : ℕ), d.lastStateValid = true → 0 < d.memorySize →
      d.memoryUsed = min n d.memorySize → d.memoryIdx = n % d.memorySize →
      (ddpg_observe_list d L).lastStateValid = true ∧
      (ddpg_observe_list d L).memorySize = d.memorySize ∧
      (ddpg_observe_list d L).stateSize = d.stateSize ∧
      (ddpg_observe_list d L).actionSize = d.actionSize ∧
      (ddpg_observe_list d L).memoryUsed
        = min (n + L.length) d.memorySize ∧
      (ddpg_observe_list d L).memoryIdx = (n + L.length) % d.memorySize := by
  induction L with
  | nil =>
    intro d n hv hM hu hi
    exact ⟨hv, rfl, rfl, rfl, by simpa using hu, by simpa using hi⟩
  | cons o rest ih =>
    intro d n hv hM hu hi
    obtain ⟨f1, f2, f3, f4, f5, f6, -⟩ :=
      ddpg_observe_valid_fields d o.action o.reward o.state o.terminal hv
    have hused :
        (ddpg_observe d o.action o.reward o.state o.terminal).memoryUsed
          = min (n + 1) d.memorySize := by
      rw [f5, hu]
      rcases Nat.lt_or_ge n d.memorySize with h | h
      · rw [if_pos (by omega)]; omega
      · rw [if_neg (by omega)]; omega
    have hidx :
        (ddpg_observe d o.action o.reward o.state o.terminal).memoryIdx
          = (n + 1) % d.memorySize := by
      rw [f6, hi, Nat.mod_add_mod]
    have h := ih (ddpg_observe d o.action o.reward o.state o.terminal)
      (n + 1) f1 (by rw [f2]; exact hM) (by rw [hused, f2])
      (by rw [hidx, f2])
    have harith : n + 1 + rest.length = n + (o :: rest).length := by
      simp [List.length_cons]; omega
    simp only [ddpg_observe_list]
    refine ⟨h.1, ?_, ?_, ?_, ?_, ?_⟩
    · rw [h.2.1, f2]
    · rw [h.2.2.1, f3]
    · rw [h.2.2.2.1, f4]
    · rw [h.2.2.2.2.1, f2, harith]
    · rw [h.2.2.2.2.2, f2, harith]

/-- A non-priming observe call writes the full observation tuple into row
`memoryIdx`, column range by column range. -/
theorem ddpg_observe_writes_row (d : DDPGMem) (o : Observation)
    (hv : d.lastStateValid = true) :
    (∀ k, k < d.stateSize →
      (ddpg_observe d o.action o.reward o.state o.terminal).memory.data
        d.memoryIdx k = d.lastState k) ∧
    (∀ k, k < d.actionSize →
      (ddpg_observe d o.action o.reward o.state o.terminal).memory.data
        d.memoryIdx (d.stateSize + k) = o.action k) ∧
    (ddpg_observe d o.action o.reward o.state o.terminal).memory.data
      d.memoryIdx (d.stateSize + d.actionSize) = o.reward ∧
    (∀ k, k < d.stateSize →
      (ddpg_observe d o.action o.reward o.state o.terminal).memory.data
        d.memoryIdx (d.stateSize + d.actionSize + 1 + k) = o.state k) ∧
    (ddpg_observe d o.action o.reward o.state o.terminal).memory.data
      d.memoryIdx (2 * d.stateSize + d.actionSize + 1)
      = (if 0 < o.terminal then 1 else 0) := by
  obtain ⟨-, -, -, -, -, -, hw⟩ :=
    ddpg_observe_valid_fields d o.action o.reward o.state o.terminal hv
  rw [hw]
  refine ⟨?_, ?_, ?_, ?_, ?_⟩
  · intro k hk
    rw [ddpg_memory_write, if_pos rfl, if_pos hk]
  · intro k hk
    rw [ddpg_memory_write, if_pos rfl, if_neg (by omega),
      if_pos (by omega), Nat.add_sub_cancel_left]
  · rw [ddpg_memory_write, if_pos rfl, if_neg (by omega),
      if_neg (by omega), if_pos rfl]
  · intro k hk
    rw [ddpg_memory_write, if_pos rfl, if_neg (by omega),
      if_neg (by omega), if_neg (by omega), if_pos (by omega),
      Nat.add_sub_cancel_left]
  · rw [ddpg_memory_write, if_pos rfl, if_neg (by omega),
      if_neg (by omega), if_neg (by omega), if_neg (by omega), if_pos rfl]

/-- C2: from a fresh agent that has been primed (`lastStateValid` true,
`used = 0`, `idx = 0`, capacity `M > 0`), after the `K = |L| + 1` non-priming
observations `L ++ [o]` the replay state has `used = min K M` and
`idx = K mod M`, and the row at `(idx + M - 1) mod M` holds the most recently
written tuple: the `lastState` preceding the final call, then `o.action`,
`o.reward`, `o.state` and the terminal flag, in that column order. -/
theorem ddpg_replay_ring_invariant (d : DDPGMem) (L : List Observation)
    (o : Observation) (hv : d.lastStateValid = true) (hM : 0 < d.memorySize)
    (hu : d.memoryUsed = 0) (hi : d.memoryIdx = 0) :
    (ddpg_observe_list d (L ++ [o])).memoryUsed
      = min (L ++ [o]).length d.memorySize ∧
    (ddpg_observe_list d (L ++ [o])).memoryIdx
      = (L ++ [o]).length % d.memorySize ∧
    (∀ k, k < d.stateSize →
      (ddpg_observe_list d (L ++ [o])).memory.data
        (((ddpg_observe_list d (L ++ [o])).memoryIdx + d.memorySize - 1)
          % d.memorySize) k
        = (ddpg_observe_list d L).lastState k) ∧
    (∀ k, k < d.actionSize →
      (ddpg_observe_list d (L ++ [o])).memory.data
        (((ddpg_observe_list d (L ++ [o])).memoryIdx + d.memorySize - 1)
          % d.memorySize) (d.stateSize + k)
        = o.action k) ∧
    (ddpg_observe_list d (L ++ [o])).memory.data
      (((ddpg_observe_list d (L ++ [o])).memoryIdx + d.memorySize - 1)
        % d.memorySize) (d.stateSize + d.actionSize) = o.reward ∧
    (∀ k, k < d.stateSize →
      (ddpg_observe_list d (L ++ [o])).memory.data
        (((ddpg_observe_list d (L ++ [o])).memoryIdx + d.memorySize - 1)
          % d.memorySize) (d.stateSize + d.actionSize + 1 + k)
        = o.state k) ∧
    (ddpg_observe_list d (L ++ [o])).memory.data
      (((ddpg_observe_list d (L ++ [o])).memoryIdx + d.memorySize - 1)
        % d.memorySize) (2 * d.stateSize + d.actionSize + 1)
      = (if 0 < o.terminal then 1 else 0) := by
  have hsplit : ddpg_observe_list d (L ++ [o])
      = ddpg_observe (ddpg_observe_list d L) o.action o.reward o.state
          o.terminal := by
    rw [ddpg_observe_list_append]; rfl
  obtain ⟨g1, g2, g3, g4, g5, g6⟩ :=
    ddpg_observe_list_counters L d 0 hv hM (by simp [hu]) (by simp [hi])
  obtain ⟨f1, f2, f3, f4, f5, f6, -⟩ :=
    ddpg_observe_valid_fields (ddpg_observe_list d L) o.action o.reward
      o.state o.terminal g1
  have hlen : (L ++ [o]).length = L.length + 1 := by simp
  have hidxL : (ddpg_observe_list d L).memoryIdx < d.memorySize := by
    rw [g6]; exact Nat.mod_lt _ hM
  have hused : (ddpg_observe_list d (L ++ [o])).memoryUsed
      = min (L ++ [o]).length d.memorySize := by
    rw [hsplit, f5, g5, g2, hlen]
    rcases Nat.lt_or_ge L.length d.memorySize with h | h
    · rw [if_pos (by omega)]; omega
    · rw [if_neg (by omega)]; omega
  have hidx : (ddpg_observe_list d (L ++ [o])).memoryIdx
      = (L ++ [o]).length % d.memorySize := by
    rw [hsplit, f6, g6, g2, hlen, Nat.mod_add_mod]
    simp
  have hrow : ((ddpg_observe_list d (L ++ [o])).memoryIdx
      + d.memorySize - 1) % d.memorySize
      = (ddpg_observe_list d L).memoryIdx := by
    rw [hsplit, f6, g2]
    rcases Nat.lt_or_ge ((ddpg_observe_list d L).memoryIdx + 1)
      d.memorySize with h | h
    · rw [Nat.mod_eq_of_lt h]
      have he : (ddpg_observe_list d L).memoryIdx + 1 + d.memorySize - 1
          = (ddpg_observe_list d L).memoryIdx + d.memorySize := by omega
      rw [he, Nat.add_mod_right, Nat.mod_eq_of_lt hidxL]
    · have hx : (ddpg_observe_list d L).memoryIdx + 1 = d.memorySize := by
        omega
      rw [hx, Nat.mod_self]
      have he : 0 + d.memorySize - 1 = (ddpg_observe_list d L).memoryIdx := by
        omega
      rw [he, Nat.mod_eq_of_lt hidxL]
  obtain ⟨w1, w2, w3, w4, w5⟩ :=
    ddpg_observe_writes_row (ddpg_observe_list d L) o g1
  refine ⟨hused, hidx, ?_, ?_, ?_, ?_, ?_⟩
  · intro k hk
    rw [hrow, hsplit]
    exact w1 k (by rw [g3]; exact hk)
  · intro k hk
    rw [hrow, hsplit]
    have := w2 k (by rw [g4]; exact hk)
    rw [g3] at this
    exact this
  · rw [hrow, hsplit]
    have := w3
    rw [g3, g4] at this
    exact this
  · intro k hk
    rw [hrow, hsplit]
    have := w4 k (by rw [g3]; exact hk)
    rw [g3, g4] at this
    exact this
  · rw [hrow, hsplit]
    have := w5
    rw [g3, g4] at this
    exact this

/-- C2 witness: a primed fresh agent with `S = 1`, `A = 1`, capacity `2`
takes two non-priming observations; afterwards `used = 2`, `idx = 0`, and the
row at `(idx + M - 1) mod M` holds the second observation's tuple with the
first observation's state as its previous state. -/
theorem ddpg_replay_ring_invariant_witness :
    (ddpg_observe_list (⟨1, 1, ⟨2, 5, fun _ _ => 0⟩, 2, 0, 0, fun _ => 9, true⟩ : DDPGMem) (([⟨fun _ => 2, 3, fun _ => 4, 0⟩] : List Observation) ++ [(⟨fun _ => 5, 6, fun _ => 7, 1⟩ : Observation)])).memoryUsed = min (([⟨fun _ => 2, 3, fun _ => 4, 0⟩] : List Observation) ++ [(⟨fun _ => 5, 6, fun _ => 7, 1⟩ : Observation)]).length 2 ∧
    (ddpg_observe_list (⟨1, 1, ⟨2, 5, fun _ _ => 0⟩, 2, 0, 0, fun _ => 9, true⟩ : DDPGMem) (([⟨fun _ => 2, 3, fun _ => 4, 0⟩] : List Observation) ++ [(⟨fun _ => 5, 6, fun _ => 7, 1⟩ : Observation)])).memoryIdx = (([⟨fun _ => 2, 3, fun _ => 4, 0⟩] : List Observation) ++ [(⟨fun _ => 5, 6, fun _ => 7, 1⟩ : Observation)]).length % 2 ∧
    (∀ k, k < 1 →
      (ddpg_observe_list (⟨1, 1, ⟨2, 5, fun _ _ => 0⟩, 2, 0, 0, fun _ => 9, true⟩ : DDPGMem) (([⟨fun _ => 2, 3, fun _ => 4, 0⟩] : List Observation) ++ [(⟨fun _ => 5, 6, fun _ => 7, 1⟩ : Observation)])).memory.data (((ddpg_observe_list (⟨1, 1, ⟨2, 5, fun _ _ => 0⟩, 2, 0, 0, fun _ => 9, true⟩ : DDPGMem) (([⟨fun _ => 2, 3, fun _ => 4, 0⟩] : List Observation) ++ [(⟨fun _ => 5, 6, fun _ => 7, 1⟩ : Observation)])).memoryIdx + 2 - 1) % 2) k = (ddpg_observe_list (⟨1, 1, ⟨2, 5, fun _ _ => 0⟩, 2, 0, 0, fun _ => 9, true⟩ : DDPGMem) ([⟨fun _ => 2, 3, fun _ => 4, 0⟩] : List Observation)).lastState k) ∧
    (∀ k, k < 1 →
      (ddpg_observe_list (⟨1, 1, ⟨2, 5, fun _ _ => 0⟩, 2, 0, 0, fun _ => 9, true⟩ : DDPGMem) (([⟨fun _ => 2, 3, fun _ => 4, 0⟩] : List Observation) ++ [(⟨fun _ => 5, 6, fun _ => 7, 1⟩ : Observation)])).memory.data (((ddpg_observe_list (⟨1, 1, ⟨2, 5, fun _ _ => 0⟩, 2, 0, 0, fun _ => 9, true⟩ : DDPGMem) (([⟨fun _ => 2, 3, fun _ => 4, 0⟩] : List Observation) ++ [(⟨fun _ => 5, 6, fun _ => 7, 1⟩ : Observation)])).memoryIdx + 2 - 1) % 2) (1 + k) = 5) ∧
    (ddpg_observe_list (⟨1, 1, ⟨2, 5, fun _ _ => 0⟩, 2, 0, 0, fun _ => 9, true⟩ : DDPGMem) (([⟨fun _ => 2, 3, fun _ => 4, 0⟩] : List Observation) ++ [(⟨fun _ => 5, 6, fun _ => 7, 1⟩ : Observation)])).memory.data (((ddpg_observe_list (⟨1, 1, ⟨2, 5, fun _ _ => 0⟩, 2, 0, 0, fun _ => 9, true⟩ : DDPGMem) (([⟨fun _ => 2, 3, fun _ => 4, 0⟩] : List Observation) ++ [(⟨fun _ => 5, 6, fun _ => 7, 1⟩ : Observation)])).memoryIdx + 2 - 1) % 2) (1 + 1) = 6 ∧
    (∀ k, k < 1 →
      (ddpg_observe_list (⟨1, 1, ⟨2, 5, fun _ _ => 0⟩, 2, 0, 0, fun _ => 9, true⟩ : DDPGMem) (([⟨fun _ => 2, 3, fun _ => 4, 0⟩] : List Observation) ++ [(⟨fun _ => 5, 6, fun _ => 7, 1⟩ : Observation)])).memory.data (((ddpg_observe_list (⟨1, 1, ⟨2, 5, fun _ _ => 0⟩, 2, 0, 0, fun _ => 9, true⟩ : DDPGMem) (([⟨fun _ => 2, 3, fun _ => 4, 0⟩] : List Observation) ++ [(⟨fun _ => 5, 6, fun _ => 7, 1⟩ : Observation)])).memoryIdx + 2 - 1) % 2) (1 + 1 + 1 + k) = 7) ∧
    (ddpg_observe_list (⟨1, 1, ⟨2, 5, fun _ _ => 0⟩, 2, 0, 0, fun _ => 9, true⟩ : DDPGMem) (([⟨fun _ => 2, 3, fun _ => 4, 0⟩] : List Observation) ++ [(⟨fun _ => 5, 6, fun _ => 7, 1⟩ : Observation)])).memory.data (((ddpg_observe_list (⟨1, 1, ⟨2, 5, fun _ _ => 0⟩, 2, 0, 0, fun _ => 9, true⟩ : DDPGMem) (([⟨fun _ => 2, 3, fun _ => 4, 0⟩] : List Observation) ++ [(⟨fun _ => 5, 6, fun _ => 7, 1⟩ : Observation)])).memoryIdx + 2 - 1) % 2) (2 * 1 + 1 + 1) = (if 0 < (1 : ℤ) then 1 else 0) :=
  ddpg_replay_ring_invariant (⟨1, 1, ⟨2, 5, fun _ _ => 0⟩, 2, 0, 0, fun _ => 9, true⟩ : DDPGMem)
    ([⟨fun _ => 2, 3, fun _ => 4, 0⟩] : List Observation) (⟨fun _ => 5, 6, fun _ => 7, 1⟩ : Observation) rfl (by decide) rfl rfl

/-- Embeds `struct Layer` from mlp.h: the parameter, scratch and gradient
matrices plus the activation function pair chosen at construction. -/
structure Layer where
  weights : Mat
  biases : Mat
  output : Mat
  errors : Mat
  deltas : Mat
  gradWeights : Mat
  gradBiases : Mat
  activation : ℚ → ℚ
  activationDeriv : ℚ → ℚ

/-- Embeds `struct MLP` from mlp.h: `depth + 1` layers (hidden layers at
indices below `depth`, the output layer at `depth`), the transposed input
copy, the input-error matrix and the public output matrix. -/
structure MLPNet where
  depth : ℕ
  batchSize : ℕ
  layers : ℕ → Layer
  input : Mat
  inputErrors : Mat
  output : Mat

/-- Sum of all in-range elements of a matrix, as the flat C loop
`for i < rows * columns` accumulates them. -/
def matFlatSum (m : Mat) : ℚ :=
  ∑ i ∈ Finset.range m.rows, ∑ j ∈ Finset.range m.columns, m.data i j

/-- loss.c `errorFunction` (the `LOSS_NONE` resolver target): copies `y`
into the error matrix and returns the mean of the copied values. -/
def errorFunction (yhat y error : Mat) : ℚ × Mat :=
  let e := matrix_copy error y
  (matFlatSum e / ((e.rows : ℚ) * (e.columns : ℚ)), e)

/-- loss.c `mse`: error is `yhat - y` elementwise; returns the mean of the
squared error values. -/
def mse (yhat y error : Mat) : ℚ × Mat :=
  let e := matrix_difference yhat y error
  ((∑ i ∈ Finset.range e.rows, ∑ j ∈ Finset.range e.columns, e.data i j ^ 2)
      / ((e.rows : ℚ) * (e.columns : ℚ)), e)

/-- loss.c `getLossFunction`: `LOSS_MSE = 1` resolves to `mse`, every other
code to `errorFunction` (in particular `LOSS_NONE = 0`). -/
def getLossFunction (code : ℤ) : Mat → Mat → Mat → ℚ × Mat :=
  if code = 1 then mse else errorFunction

/-- Replaces layer `i` of the network, leaving all other layers intact
(the C code mutates `mlp->layers[i]` in place). -/
def setLayer (m : MLPNet) (i : ℕ) (L : Layer) : MLPNet :=
  { m with layers := fun j => if j = i then L else m.layers j }

/-- One iteration (index `i`) of the downward loop of `mlp_backpropagate`:
`errors_i = deltas_{i+1} · weights_{i+1}`, then
`deltas_i = activationDeriv(output_i^T) ⊙ errors_i`. -/
def mlp_bp_step (m : MLPNet) (i : ℕ) : MLPNet :=
  let e := matrix_dot (m.layers (i + 1)).deltas (m.layers (i + 1)).weights
    (m.layers i).errors
  let d1 := matrix_transpose (m.layers i).output (m.layers i).deltas
  let d2 := matrix_apply d1 (m.layers i).activationDeriv
  let d3 := matrix_odot d2 e
  setLayer m i { m.layers i with errors := e, deltas := d3 }

/-- The downward loop `for (i = depth - 1; i >= 0; i--)` of
`mlp_backpropagate`, run with the number of remaining iterations as fuel. -/
def mlp_bp_loop (m : MLPNet) : ℕ → MLPNet
  | 0 => m
  | Nat.succ i => mlp_bp_loop (mlp_bp_step m i) i

/-- One iteration (index `i`) of the gradient loop of `mlp_backpropagate`:
`gradWeights_i = dot_transpose(input_i, deltas_i) / batchSize` and
`gradBiases_i = sum_rows_transpose(deltas_i) / batchSize`, where `input_i`
is the stored network input for `i = 0` and `output_{i-1}` otherwise. -/
def mlp_grad_step (m : MLPNet) (i : ℕ) : MLPNet :=
  let inp := if i = 0 then m.input else (m.layers (i - 1)).output
  let gw := matrix_divide
    (matrix_dot_transpose inp (m.layers i).deltas (m.layers i).gradWeights)
    (m.batchSize : ℚ)
  let gb := matrix_divide
    (matrix_sum_rows_transpose (m.layers i).deltas (m.layers i).gradBiases)
    (m.batchSize : ℚ)
  setLayer m i { m.layers i with gradWeights := gw, gradBiases := gb }

/-- The upward gradient loop `for (i = 0; i <= depth; i++)` of
`mlp_backpropagate`: starts at index `i` and runs the given number of
iterations. -/
def mlp_grad_loop : MLPNet → ℕ → ℕ → MLPNet
  | m, _, 0 => m
  | m, i, Nat.succ r => mlp_grad_loop (mlp_grad_step m i) (i + 1) r

/-- The first stage of `mlp_backpropagate`: the loss function writes the
output-layer error matrix, and the output-layer deltas are set to the
activation derivative applied to a copy of the public `output` matrix,
Hadamard-multiplied with the errors exactly when `depth > 0`. -/
def mlp_bp_first_stage (m : MLPNet) (y : Mat) (code : ℤ) : MLPNet :=
  setLayer m m.depth
    { m.layers m.depth with
      errors := (getLossFunction code m.output y (m.layers m.depth).errors).2
      deltas :=
        (if 0 < m.depth then
          matrix_odot
            (matrix_apply (matrix_copy (m.layers m.depth).deltas m.output)
              (m.layers m.depth).activationDeriv)
            (getLossFunction code m.output y (m.layers m.depth).errors).2
        else
          matrix_apply (matrix_copy (m.layers m.depth).deltas m.output)
            (m.layers m.depth).activationDeriv) }

/-- State after the downward error loop of `mlp_backpropagate`. -/
def mlp_bp_after_loop (m : MLPNet) (y : Mat) (code : ℤ) : MLPNet :=
  mlp_bp_loop (mlp_bp_first_stage m y code) m.depth

/-- State after `mlp_backpropagate` computes
`inputErrors = deltas_0 · weights_0`. -/
def mlp_bp_with_input_errors (m : MLPNet) (y : Mat) (code : ℤ) : MLPNet :=
  { mlp_bp_after_loop m y code with
    inputErrors :=
      (matrix_dot ((mlp_bp_after_loop m y code).layers 0).deltas
        ((mlp_bp_after_loop m y code).layers 0).weights
        (mlp_bp_after_loop m y code).inputErrors) }

/-- mlp.c `mlp_backpropagate`: computes the error matrix and loss via the
resolved loss function, sets the output-layer deltas from a copy of the
public `output` matrix with the activation derivative applied elementwise,
Hadamard-multiplies the errors in only when `depth > 0`, runs the downward
error loop, computes `inputErrors = deltas_0 · weights_0`, and finally the
gradient loop; returns the scalar loss with the updated network. -/
def mlp_backpropagate (m : MLPNet) (y : Mat) (lossFunctionCode : ℤ) :
    ℚ × MLPNet :=
  ((getLossFunction lossFunctionCode m.output y (m.layers m.depth).errors).1,
   mlp_grad_loop (mlp_bp_with_input_errors m y lossFunctionCode) 0
     (m.depth + 1))

/-- The downward loop only writes layers with index strictly below its
fuel, so any layer at or above the starting index is untouched. -/
theorem mlp_bp_loop_frame : ∀ (n : ℕ) (m : MLPNet) (j : ℕ), n ≤ j →
    (mlp_bp_loop m n).layers j = m.layers j := by
  intro n
  induction n with
  | zero => intro m j _; rfl
  | succ i ih =>
    intro m j hj
    show (mlp_bp_loop (mlp_bp_step m i) i).layers j = m.layers j
    rw [ih (mlp_bp_step m i) j (by omega)]
    simp only [mlp_bp_step, setLayer]
    rw [if_neg (by omega)]

/-- The gradient loop never changes any layer's `deltas` or `errors`
matrices (it only writes gradients). -/
theorem mlp_grad_loop_keeps_deltas : ∀ (r i : ℕ) (m : MLPNet) (j : ℕ),
    ((mlp_grad_loop m i r).layers j).deltas = (m.layers j).deltas ∧
    ((mlp_grad_loop m i r).layers j).errors = (m.layers j).errors := by
  intro r
  induction r with
  | zero => intro i m j; exact ⟨rfl, rfl⟩
  | succ n ih =>
    intro i m j
    show ((mlp_grad_loop (mlp_grad_step m i) (i + 1) n).layers j).deltas
        = (m.layers j).deltas ∧
      ((mlp_grad_loop (mlp_grad_step m i) (i + 1) n).layers j).errors
        = (m.layers j).errors
    obtain ⟨h1, h2⟩ := ih (i + 1) (mlp_grad_step m i) j
    rw [h1, h2]
    simp only [mlp_grad_step, setLayer]
    by_cases hj : j = i
    · rw [if_pos hj, hj]
      exact ⟨by trivial, by trivial⟩
    · rw [if_neg hj]
      exact ⟨by trivial, by trivial⟩

/-- After `mlp_backpropagate`, the output layer's deltas and errors are the
values written in its first stage: errors from the loss function, deltas the
derivative-transformed copy of `output`, Hadamard-multiplied with the errors
exactly when `depth > 0`. -/
theorem mlp_backprop_last_layer_eq (m : MLPNet) (y : Mat) (code : ℤ) :
    ((mlp_backpropagate m y code).2.layers m.depth).deltas
      = (if 0 < m.depth then
          matrix_odot
            (matrix_apply (matrix_copy (m.layers m.depth).deltas m.output)
              (m.layers m.depth).activationDeriv)
            (getLossFunction code m.output y (m.layers m.depth).errors).2
        else
          matrix_apply (matrix_copy (m.layers m.depth).deltas m.output)
            (m.layers m.depth).activationDeriv) ∧
    ((mlp_backpropagate m y code).2.layers m.depth).errors
      = (getLossFunction code m.output y (m.layers m.depth).errors).2 := by
  obtain ⟨hd, he⟩ := mlp_grad_loop_keeps_deltas (m.depth + 1) 0
    (mlp_bp_with_input_errors m y code) m.depth
  have hlay : (mlp_bp_with_input_errors m y code).layers
      = (mlp_bp_after_loop m y code).layers := rfl
  have hbp := mlp_bp_loop_frame m.depth (mlp_bp_first_stage m y code)
    m.depth (le_refl _)
  constructor
  · show ((mlp_grad_loop (mlp_bp_with_input_errors m y code) 0
        (m.depth + 1)).layers m.depth).deltas = _
    rw [hd, hlay, mlp_bp_after_loop, hbp]
    simp only [mlp_bp_first_stage, setLayer]
    rw [if_pos trivial]
  · show ((mlp_grad_loop (mlp_bp_with_input_errors m y code) 0
        (m.depth + 1)).layers m.depth).errors = _
    rw [he, hlay, mlp_bp_after_loop, hbp]
    simp only [mlp_bp_first_stage, setLayer]
    rw [if_pos trivial]

/-- C4: in `mlp_backpropagate` the output-layer deltas are, elementwise on
the shape of the deltas buffer (`B` by `outputSize`), the activation
derivative applied to the copied public `output` matrix, multiplied by the
output-layer errors if and only if `depth > 0`; at `depth = 0` the errors
are never multiplied into the deltas. -/
theorem mlp_backpropagate_output_deltas (m : MLPNet) (y : Mat) (code : ℤ)
    (b j : ℕ) (hb : b < (m.layers m.depth).deltas.rows)
    (hj : j < (m.layers m.depth).deltas.columns) :
    ((mlp_backpropagate m y code).2.layers m.depth).deltas.data b j
      = (if 0 < m.depth then
          (m.layers m.depth).activationDeriv (m.output.data b j)
            * ((mlp_backpropagate m y code).2.layers m.depth).errors.data b j
        else
          (m.layers m.depth).activationDeriv (m.output.data b j)) := by
  obtain ⟨hd, he⟩ := mlp_backprop_last_layer_eq m y code
  rw [hd, he]
  by_cases hdep : 0 < m.depth
  · rw [if_pos hdep, if_pos hdep]
    simp only [matrix_odot, matrix_apply, matrix_copy]
    rw [if_pos ⟨hb, hj⟩, if_pos ⟨hb, hj⟩, if_pos ⟨hb, hj⟩]
  · rw [if_neg hdep, if_neg hdep]
    simp only [matrix_apply, matrix_copy]
    rw [if_pos ⟨hb, hj⟩, if_pos ⟨hb, hj⟩]

/-- C6: for a depth-0 network, back-propagating with `LOSS_NONE` produces
`gradWeights`, `gradBiases` and `inputErrors` that do not depend on the
supplied target matrix at all: two arbitrary targets yield identical
results, because the Hadamard step is skipped at depth 0. -/
theorem mlp_backpropagate_depth0_error_independence (m : MLPNet)
    (y1 y2 : Mat) (h : m.depth = 0) :
    (mlp_backpropagate m y1 0).2.inputErrors
      = (mlp_backpropagate m y2 0).2.inputErrors ∧
    ((mlp_backpropagate m y1 0).2.layers 0).gradWeights
      = ((mlp_backpropagate m y2 0).2.layers 0).gradWeights ∧
    ((mlp_backpropagate m y1 0).2.layers 0).gradBiases
      = ((mlp_backpropagate m y2 0).2.layers 0).gradBiases := by
  simp only [mlp_backpropagate, mlp_bp_with_input_errors, mlp_bp_after_loop,
    mlp_bp_first_stage, h, mlp_bp_loop, mlp_grad_loop, mlp_grad_step,
    setLayer, getLossFunction, errorFunction, Nat.lt_irrefl, if_false]
  exact ⟨by trivial, by trivial, by trivial⟩

/-- C4 witness: a concrete depth-1 network with identity activation
derivative; the output-layer delta at (0, 0) is the derivative of the public
output entry times the output-layer error entry. -/
theorem mlp_backpropagate_output_deltas_witness :
    ((mlp_backpropagate (⟨1, 1, fun _ => ⟨⟨1, 1, fun _ _ => 1⟩, ⟨1, 1, fun _ _ => 0⟩, ⟨1, 1, fun _ _ => 2⟩, ⟨1, 1, fun _ _ => 0⟩, ⟨1, 1, fun _ _ => 0⟩, ⟨1, 1, fun _ _ => 0⟩, ⟨1, 1, fun _ _ => 0⟩, fun q => q, fun q => q⟩, ⟨1, 1, fun _ _ => 1⟩, ⟨1, 1, fun _ _ => 0⟩, ⟨1, 1, fun _ _ => 5⟩⟩ : MLPNet) (⟨1, 1, fun _ _ => 3⟩ : Mat) 0).2.layers 1).deltas.data 0 0
      = (if 0 < 1 then
          5 * ((mlp_backpropagate (⟨1, 1, fun _ => ⟨⟨1, 1, fun _ _ => 1⟩, ⟨1, 1, fun _ _ => 0⟩, ⟨1, 1, fun _ _ => 2⟩, ⟨1, 1, fun _ _ => 0⟩, ⟨1, 1, fun _ _ => 0⟩, ⟨1, 1, fun _ _ => 0⟩, ⟨1, 1, fun _ _ => 0⟩, fun q => q, fun q => q⟩, ⟨1, 1, fun _ _ => 1⟩, ⟨1, 1, fun _ _ => 0⟩, ⟨1, 1, fun _ _ => 5⟩⟩ : MLPNet) (⟨1, 1, fun _ _ => 3⟩ : Mat) 0).2.layers 1).errors.data 0 0
        else (5 : ℚ)) :=
  mlp_backpropagate_output_deltas (⟨1, 1, fun _ => ⟨⟨1, 1, fun _ _ => 1⟩, ⟨1, 1, fun _ _ => 0⟩, ⟨1, 1, fun _ _ => 2⟩, ⟨1, 1, fun _ _ => 0⟩, ⟨1, 1, fun _ _ => 0⟩, ⟨1, 1, fun _ _ => 0⟩, ⟨1, 1, fun _ _ => 0⟩, fun q => q, fun q => q⟩, ⟨1, 1, fun _ _ => 1⟩, ⟨1, 1, fun _ _ => 0⟩, ⟨1, 1, fun _ _ => 5⟩⟩ : MLPNet) (⟨1, 1, fun _ _ => 3⟩ : Mat) 0 0 0 (by decide) (by decide)

/-- C6 witness: a concrete depth-0 network back-propagated with two
different `LOSS_NONE` targets yields identical input errors and gradients. -/
theorem mlp_backpropagate_depth0_error_independence_witness :
    (mlp_backpropagate (⟨0, 1, fun _ => ⟨⟨1, 1, fun _ _ => 1⟩, ⟨1, 1, fun _ _ => 0⟩, ⟨1, 1, fun _ _ => 2⟩, ⟨1, 1, fun _ _ => 0⟩, ⟨1, 1, fun _ _ => 0⟩, ⟨1, 1, fun _ _ => 0⟩, ⟨1, 1, fun _ _ => 0⟩, fun q => q, fun q => q⟩, ⟨1, 1, fun _ _ => 1⟩, ⟨1, 1, fun _ _ => 0⟩, ⟨1, 1, fun _ _ => 5⟩⟩ : MLPNet) (⟨1, 1, fun _ _ => 3⟩ : Mat) 0).2.inputErrors
      = (mlp_backpropagate (⟨0, 1, fun _ => ⟨⟨1, 1, fun _ _ => 1⟩, ⟨1, 1, fun _ _ => 0⟩, ⟨1, 1, fun _ _ => 2⟩, ⟨1, 1, fun _ _ => 0⟩, ⟨1, 1, fun _ _ => 0⟩, ⟨1, 1, fun _ _ => 0⟩, ⟨1, 1, fun _ _ => 0⟩, fun q => q, fun q => q⟩, ⟨1, 1, fun _ _ => 1⟩, ⟨1, 1, fun _ _ => 0⟩, ⟨1, 1, fun _ _ => 5⟩⟩ : MLPNet) (⟨1, 1, fun _ _ => 4⟩ : Mat) 0).2.inputErrors ∧
    ((mlp_backpropagate (⟨0, 1, fun _ => ⟨⟨1, 1, fun _ _ => 1⟩, ⟨1, 1, fun _ _ => 0⟩, ⟨1, 1, fun _ _ => 2⟩, ⟨1, 1, fun _ _ => 0⟩, ⟨1, 1, fun _ _ => 0⟩, ⟨1, 1, fun _ _ => 0⟩, ⟨1, 1, fun _ _ => 0⟩, fun q => q, fun q => q⟩, ⟨1, 1, fun _ _ => 1⟩, ⟨1, 1, fun _ _ => 0⟩, ⟨1, 1, fun _ _ => 5⟩⟩ : MLPNet) (⟨1, 1, fun _ _ => 3⟩ : Mat) 0).2.layers 0).gradWeights
      = ((mlp_backpropagate (⟨0, 1, fun _ => ⟨⟨1, 1, fun _ _ => 1⟩, ⟨1, 1, fun _ _ => 0⟩, ⟨1, 1, fun _ _ => 2⟩, ⟨1, 1, fun _ _ => 0⟩, ⟨1, 1, fun _ _ => 0⟩, ⟨1, 1, fun _ _ => 0⟩, ⟨1, 1, fun _ _ => 0⟩, fun q => q, fun q => q⟩, ⟨1, 1, fun _ _ => 1⟩, ⟨1, 1, fun _ _ => 0⟩, ⟨1, 1, fun _ _ => 5⟩⟩ : MLPNet) (⟨1, 1, fun _ _ => 4⟩ : Mat) 0).2.layers 0).gradWeights ∧
    ((mlp_backpropagate (⟨0, 1, fun _ => ⟨⟨1, 1, fun _ _ => 1⟩, ⟨1, 1, fun _ _ => 0⟩, ⟨1, 1, fun _ _ => 2⟩, ⟨1, 1, fun _ _ => 0⟩, ⟨1, 1, fun _ _ => 0⟩, ⟨1, 1, fun _ _ => 0⟩, ⟨1, 1, fun _ _ => 0⟩, fun q => q, fun q => q⟩, ⟨1, 1, fun _ _ => 1⟩, ⟨1, 1, fun _ _ => 0⟩, ⟨1, 1, fun _ _ => 5⟩⟩ : MLPNet) (⟨1, 1, fun _ _ => 3⟩ : Mat) 0).2.layers 0).gradBiases
      = ((mlp_backpropagate (⟨0, 1, fun _ => ⟨⟨1, 1, fun _ _ => 1⟩, ⟨1, 1, fun _ _ => 0⟩, ⟨1, 1, fun _ _ => 2⟩, ⟨1, 1, fun _ _ => 0⟩, ⟨1, 1, fun _ _ => 0⟩, ⟨1, 1, fun _ _ => 0⟩, ⟨1, 1, fun _ _ => 0⟩, fun q => q, fun q => q⟩, ⟨1, 1, fun _ _ => 1⟩, ⟨1, 1, fun _ _ => 0⟩, ⟨1, 1, fun _ _ => 5⟩⟩ : MLPNet) (⟨1, 1, fun _ _ => 4⟩ : Mat) 0).2.layers 0).gradBiases :=
  mlp_backpropagate_depth0_error_independence (⟨0, 1, fun _ => ⟨⟨1, 1, fun _ _ => 1⟩, ⟨1, 1, fun _ _ => 0⟩, ⟨1, 1, fun _ _ => 2⟩, ⟨1, 1, fun _ _ => 0⟩, ⟨1, 1, fun _ _ => 0⟩, ⟨1, 1, fun _ _ => 0⟩, ⟨1, 1, fun _ _ => 0⟩, fun q => q, fun q => q⟩, ⟨1, 1, fun _ _ => 1⟩, ⟨1, 1, fun _ _ => 0⟩, ⟨1, 1, fun _ _ => 5⟩⟩ : MLPNet) (⟨1, 1, fun _ _ => 3⟩ : Mat) (⟨1, 1, fun _ _ => 4⟩ : Mat) rfl

/-- Embeds `struct Adam` from adam.h: step counter, hyper-parameters with
the running `beta1^t`, `beta2^t` powers, the layer count and the per-layer
first/second moment matrices for weights and biases. -/
structure AdamSt where
  t : ℕ
  alpha : ℚ
  beta1 : ℚ
  beta2 : ℚ
  beta1t : ℚ
  beta2t : ℚ
  epsilon : ℚ
  depth : ℕ
  mw : ℕ → Mat
  mb : ℕ → Mat
  vw : ℕ → Mat
  vb : ℕ → Mat

/-- First-moment update of adam.c, elementwise over the parameter shape:
`m = beta1 * m + (1 - beta1) * g`. -/
def adam_moment1 (a : AdamSt) (mOld g : Mat) (rows cols : ℕ) : Mat :=
  ⟨mOld.rows, mOld.columns, fun r c =>
    if r < rows ∧ c < cols then
      a.beta1 * mOld.data r c + (1 - a.beta1) * g.data r c
    else mOld.data r c⟩

/-- Second-moment update of adam.c, elementwise:
`v = beta2 * v + (1 - beta2) * g * g`. -/
def adam_moment2 (a : AdamSt) (vOld g : Mat) (rows cols : ℕ) : Mat :=
  ⟨vOld.rows, vOld.columns, fun r c =>
    if r < rows ∧ c < cols then
      a.beta2 * vOld.data r c + (1 - a.beta2) * g.data r c * g.data r c
    else vOld.data r c⟩

/-- The weight update of `adam_optimize`: each element reads the freshly
written moments (inlined here, since every element is written exactly once)
and performs `w -= alpha * (mhat / (sqrt(vhat) + epsilon))`, with `epsilon`
added inside the denominator. -/
def adam_weight_update (sqrtf : ℚ → ℚ) (a : AdamSt) (w gw mwOld vwOld : Mat) :
    Mat :=
  ⟨w.rows, w.columns, fun r c =>
    if r < w.rows ∧ c < w.columns then
      w.data r c - a.alpha *
        (((a.beta1 * mwOld.data r c + (1 - a.beta1) * gw.data r c)
            / (1 - a.beta1t))
          / (sqrtf ((a.beta2 * vwOld.data r c
              + (1 - a.beta2) * gw.data r c * gw.data r c) / (1 - a.beta2t))
            + a.epsilon))
    else w.data r c⟩

/-- The bias update of `adam_optimize`: `b -= alpha * (mhat / sqrt(vhat) +
epsilon)`, with `epsilon` added outside the division. -/
def adam_bias_update (sqrtf : ℚ → ℚ) (a : AdamSt) (b gb mbOld vbOld : Mat) :
    Mat :=
  ⟨b.rows, b.columns, fun r c =>
    if r < b.rows ∧ c < b.columns then
      b.data r c - a.alpha *
        ((a.beta1 * mbOld.data r c + (1 - a.beta1) * gb.data r c)
            / (1 - a.beta1t)
          / sqrtf ((a.beta2 * vbOld.data r c
              + (1 - a.beta2) * gb.data r c * gb.data r c) / (1 - a.beta2t))
          + a.epsilon)
    else b.data r c⟩

/-- One layer iteration of the `adam_optimize` loop: updates the moments of
layer `i` and writes the new weights and biases of layer `i`. -/
def adam_layer_step (sqrtf : ℚ → ℚ) (m : MLPNet) (a : AdamSt) (i : ℕ) :
    MLPNet × AdamSt :=
  (setLayer m i
    { m.layers i with
      weights := adam_weight_update sqrtf a (m.layers i).weights
        (m.layers i).gradWeights (a.mw i) (a.vw i)
      biases := adam_bias_update sqrtf a (m.layers i).biases
        (m.layers i).gradBiases (a.mb i) (a.vb i) },
   { a with
     mw := fun j => if j = i then
       adam_moment1 a (a.mw i) (m.layers i).gradWeights
         (m.layers i).weights.rows (m.layers i).weights.columns
       else a.mw j
     vw := fun j => if j = i then
       adam_moment2 a (a.vw i) (m.layers i).gradWeights
         (m.layers i).weights.rows (m.layers i).weights.columns
       else a.vw j
     mb := fun j => if j = i then
       adam_moment1 a (a.mb i) (m.layers i).gradBiases
         (m.layers i).biases.rows (m.layers i).biases.columns
       else a.mb j
     vb := fun j => if j = i then
       adam_moment2 a (a.vb i) (m.layers i).gradBiases
         (m.layers i).biases.rows (m.layers i).biases.columns
       else a.vb j })

/-- The `for (i = 0; i < adam->depth; i++)` loop of `adam_optimize`,
starting at layer `i` with the given number of remaining iterations. -/
def adam_loop (sqrtf : ℚ → ℚ) : MLPNet → AdamSt → ℕ → ℕ → MLPNet × AdamSt
  | m, a, _, 0 => (m, a)
  | m, a, i, Nat.succ r =>
    adam_loop sqrtf (adam_layer_step sqrtf m a i).1
      (adam_layer_step sqrtf m a i).2 (i + 1) r

/-- adam.c `adam_optimize`: increments `t`, runs the per-layer update loop
over all `depth` layers, then multiplies the running `beta1t`, `beta2t`
powers by `beta1`, `beta2`.  The libm `sqrt` is the parameter `sqrtf`. -/
def adam_optimize (sqrtf : ℚ → ℚ) (m : MLPNet) (a : AdamSt) :
    MLPNet × AdamSt :=
  ((adam_loop sqrtf m { a with t := a.t + 1 } 0 a.depth).1,
   { (adam_loop sqrtf m { a with t := a.t + 1 } 0 a.depth).2 with
     beta1t := (adam_loop sqrtf m { a with t := a.t + 1 } 0 a.depth).2.beta1t
       * a.beta1
     beta2t := (adam_loop sqrtf m { a with t := a.t + 1 } 0 a.depth).2.beta2t
       * a.beta2 })

/-- The adam loop never touches layers below its starting index. -/
theorem adam_loop_frame (sqrtf : ℚ → ℚ) :
    ∀ (r i₀ : ℕ) (m : MLPNet) (a : AdamSt) (j : ℕ), j < i₀ →
      (adam_loop sqrtf m a i₀ r).1.layers j = m.layers j := by
  intro r
  induction r with
  | zero => intro i₀ m a j _; rfl
  | succ n ih =>
    intro i₀ m a j hj
    show (adam_loop sqrtf (adam_layer_step sqrtf m a i₀).1
      (adam_layer_step sqrtf m a i₀).2 (i₀ + 1) n).1.layers j = m.layers j
    rw [ih (i₀ + 1) _ _ j (by omega)]
    simp only [adam_layer_step, setLayer]
    rw [if_neg (by omega)]

/-- Every layer visited by the adam loop ends with weights and biases given
by the update formulas applied to the layer and moment state at loop entry:
earlier iterations touch only lower layers, later ones only higher layers. -/
theorem adam_loop_layers (sqrtf : ℚ → ℚ) :
    ∀ (r i₀ : ℕ) (m : MLPNet) (a : AdamSt) (j : ℕ), i₀ ≤ j → j < i₀ + r →
      ((adam_loop sqrtf m a i₀ r).1.layers j).weights
        = adam_weight_update sqrtf a (m.layers j).weights
            (m.layers j).gradWeights (a.mw j) (a.vw j) ∧
      ((adam_loop sqrtf m a i₀ r).1.layers j).biases
        = adam_bias_update sqrtf a (m.layers j).biases
            (m.layers j).gradBiases (a.mb j) (a.vb j) := by
  intro r
  induction r with
  | zero => intro i₀ m a j h1 h2; omega
  | succ n ih =>
    intro i₀ m a j h1 h2
    rcases eq_or_lt_of_le h1 with he | hlt
    · subst he
      constructor
      · show ((adam_loop sqrtf (adam_layer_step sqrtf m a i₀).1
            (adam_layer_step sqrtf m a i₀).2 (i₀ + 1) n).1.layers i₀).weights
            = _
        rw [adam_loop_frame sqrtf n (i₀ + 1) (adam_layer_step sqrtf m a i₀).1
          (adam_layer_step sqrtf m a i₀).2 i₀ (by omega)]
        simp only [adam_layer_step, setLayer]
        rw [if_pos trivial]
      · show ((adam_loop sqrtf (adam_layer_step sqrtf m a i₀).1
            (adam_layer_step sqrtf m a i₀).2 (i₀ + 1) n).1.layers i₀).biases
            = _
        rw [adam_loop_frame sqrtf n (i₀ + 1) (adam_layer_step sqrtf m a i₀).1
          (adam_layer_step sqrtf m a i₀).2 i₀ (by omega)]
        simp only [adam_layer_step, setLayer]
        rw [if_pos trivial]
    · have hlayers : (adam_layer_step sqrtf m a i₀).1.layers j
          = m.layers j := by
        simp only [adam_layer_step, setLayer]
        rw [if_neg (by omega)]
      have hmw : (adam_layer_step sqrtf m a i₀).2.mw j = a.mw j := by
        simp only [adam_layer_step]
        rw [if_neg (by omega)]
      have hvw : (adam_layer_step sqrtf m a i₀).2.vw j = a.vw j := by
        simp only [adam_layer_step]
        rw [if_neg (by omega)]
      have hmb : (adam_layer_step sqrtf m a i₀).2.mb j = a.mb j := by
        simp only [adam_layer_step]
        rw [if_neg (by omega)]
      have hvb : (adam_layer_step sqrtf m a i₀).2.vb j = a.vb j := by
        simp only [adam_layer_step]
        rw [if_neg (by omega)]
      obtain ⟨hw, hb⟩ := ih (i₀ + 1) (adam_layer_step sqrtf m a i₀).1
        (adam_layer_step sqrtf m a i₀).2 j (by omega) (by omega)
      rw [hlayers, hmw, hvw] at hw
      rw [hlayers, hmb, hvb] at hb
      exact ⟨hw, hb⟩

/-- C3: in `adam_optimize`, for every layer and every in-range parameter
element and every step (any pre-state), the weight update is
`w -= alpha * (mhat / (sqrtf(vhat) + epsilon))` with `epsilon` inside the
denominator, while the bias update is
`b -= alpha * (mhat / sqrtf(vhat) + epsilon)` with `epsilon` added outside
the division, where `mhat`, `vhat` are the bias-corrected freshly updated
moments; this holds for any function supplied for libm `sqrt`. -/
theorem adam_optimize_epsilon_asymmetry (sqrtf : ℚ → ℚ) (m : MLPNet)
    (a : AdamSt) (i r c rb cb : ℕ) (hi : i < a.depth)
    (hr : r < (m.layers i).weights.rows)
    (hc : c < (m.layers i).weights.columns)
    (hrb : rb < (m.layers i).biases.rows)
    (hcb : cb < (m.layers i).biases.columns) :
    ((adam_optimize sqrtf m a).1.layers i).weights.data r c
      = (m.layers i).weights.data r c - a.alpha *
          (((a.beta1 * (a.mw i).data r c
              + (1 - a.beta1) * (m.layers i).gradWeights.data r c)
              / (1 - a.beta1t))
            / (sqrtf ((a.beta2 * (a.vw i).data r c
                + (1 - a.beta2) * (m.layers i).gradWeights.data r c
                  * (m.layers i).gradWeights.data r c) / (1 - a.beta2t))
              + a.epsilon)) ∧
    ((adam_optimize sqrtf m a).1.layers i).biases.data rb cb
      = (m.layers i).biases.data rb cb - a.alpha *
          ((a.beta1 * (a.mb i).data rb cb
              + (1 - a.beta1) * (m.layers i).gradBiases.data rb cb)
              / (1 - a.beta1t)
            / sqrtf ((a.beta2 * (a.vb i).data rb cb
                + (1 - a.beta2) * (m.layers i).gradBiases.data rb cb
                  * (m.layers i).gradBiases.data rb cb) / (1 - a.beta2t))
            + a.epsilon) := by
  obtain ⟨hw, hb⟩ := adam_loop_layers sqrtf a.depth 0 m
    { a with t := a.t + 1 } i (Nat.zero_le i) (by omega)
  constructor
  · show ((adam_loop sqrtf m { a with t := a.t + 1 } 0
        a.depth).1.layers i).weights.data r c = _
    rw [hw]
    simp only [adam_weight_update]
    rw [if_pos ⟨hr, hc⟩]
  · show ((adam_loop sqrtf m { a with t := a.t + 1 } 0
        a.depth).1.layers i).biases.data rb cb = _
    rw [hb]
    simp only [adam_bias_update]
    rw [if_pos ⟨hrb, hcb⟩]

/-- C3 witness: one concrete layer with 1-by-1 parameter matrices,
`sqrt` instantiated to the identity; the weight element gets `epsilon`
inside the denominator, the bias element gets it outside. -/
theorem adam_optimize_epsilon_asymmetry_witness :
    ((adam_optimize (fun q => q) (⟨1, 1, fun _ => ⟨⟨1, 1, fun _ _ => 1⟩, ⟨1, 1, fun _ _ => 0⟩, ⟨1, 1, fun _ _ => 0⟩, ⟨1, 1, fun _ _ => 0⟩, ⟨1, 1, fun _ _ => 0⟩, ⟨1, 1, fun _ _ => 2⟩, ⟨1, 1, fun _ _ => 3⟩, fun q => q, fun q => q⟩, ⟨1, 1, fun _ _ => 0⟩, ⟨1, 1, fun _ _ => 0⟩, ⟨1, 1, fun _ _ => 0⟩⟩ : MLPNet)
        (⟨0, 1, 0, 0, 1/2, 1/2, 1/8, 1, fun _ => ⟨1, 1, fun _ _ => 0⟩, fun _ => ⟨1, 1, fun _ _ => 0⟩, fun _ => ⟨1, 1, fun _ _ => 0⟩, fun _ => ⟨1, 1, fun _ _ => 0⟩⟩ : AdamSt)).1.layers 0).weights.data 0 0
      = 1 - 1 * (((0 * 0 + (1 - 0) * 2) / (1 - 1/2))
          / ((0 * 0 + (1 - 0) * 2 * 2) / (1 - 1/2) + 1/8)) ∧
    ((adam_optimize (fun q => q) (⟨1, 1, fun _ => ⟨⟨1, 1, fun _ _ => 1⟩, ⟨1, 1, fun _ _ => 0⟩, ⟨1, 1, fun _ _ => 0⟩, ⟨1, 1, fun _ _ => 0⟩, ⟨1, 1, fun _ _ => 0⟩, ⟨1, 1, fun _ _ => 2⟩, ⟨1, 1, fun _ _ => 3⟩, fun q => q, fun q => q⟩, ⟨1, 1, fun _ _ => 0⟩, ⟨1, 1, fun _ _ => 0⟩, ⟨1, 1, fun _ _ => 0⟩⟩ : MLPNet)
        (⟨0, 1, 0, 0, 1/2, 1/2, 1/8, 1, fun _ => ⟨1, 1, fun _ _ => 0⟩, fun _ => ⟨1, 1, fun _ _ => 0⟩, fun _ => ⟨1, 1, fun _ _ => 0⟩, fun _ => ⟨1, 1, fun _ _ => 0⟩⟩ : AdamSt)).1.layers 0).biases.data 0 0
      = 0 - 1 * ((0 * 0 + (1 - 0) * 3) / (1 - 1/2)
          / ((0 * 0 + (1 - 0) * 3 * 3) / (1 - 1/2)) + 1/8) :=
  adam_optimize_epsilon_asymmetry (fun q => q) (⟨1, 1, fun _ => ⟨⟨1, 1, fun _ _ => 1⟩, ⟨1, 1, fun _ _ => 0⟩, ⟨1, 1, fun _ _ => 0⟩, ⟨1, 1, fun _ _ => 0⟩, ⟨1, 1, fun _ _ => 0⟩, ⟨1, 1, fun _ _ => 2⟩, ⟨1, 1, fun _ _ => 3⟩, fun q => q, fun q => q⟩, ⟨1, 1, fun _ _ => 0⟩, ⟨1, 1, fun _ _ => 0⟩, ⟨1, 1, fun _ _ => 0⟩⟩ : MLPNet)
    (⟨0, 1, 0, 0, 1/2, 1/2, 1/8, 1, fun _ => ⟨1, 1, fun _ _ => 0⟩, fun _ => ⟨1, 1, fun _ _ => 0⟩, fun _ => ⟨1, 1, fun _ _ => 0⟩, fun _ => ⟨1, 1, fun _ _ => 0⟩⟩ : AdamSt) 0 0 0 0 0 (by decide) (by decide) (by decide)
    (by decide) (by decide)

/-- The persisted part of one layer: its weights and biases matrices (the
only matrices `mlp_write_weights` serializes). -/
structure LayerWB where
  weights : Mat
  biases : Mat

/-- mlp.c `mlp_write_weights`: serializes the weights then the biases of
every layer in order `0..depth`.  The byte stream is modelled at matrix
granularity — `matrix_write` emits `rows`, `columns` and the flat data,
which a faithful stream hands back to `matrix_read` unchanged, and file
I/O errors are outside this model. -/
def mlp_write_weights (layers : List LayerWB) : List Mat :=
  layers.foldr (fun l acc => l.weights :: l.biases :: acc) []

/-- matrix.c `matrix_read` over the modelled stream: returns the null
matrix (here `none`) when the stream is exhausted or the matrix has
`rows * columns <= 0`; otherwise the read matrix and the remaining
stream. -/
def matrix_read : List Mat → Option (Mat × List Mat)
  | [] => none
  | m :: rest => if m.rows * m.columns = 0 then none else some (m, rest)

/-- mlp.c `mlp_read_weights`: for each layer reads a matrix, fails with
`-1` (here `none`) when the read fails or its shape differs from the
layer's weights, then does the same for the biases; on success the read
data is copied into the layer matrices via `matrix_copy`. -/
def mlp_read_weights : List LayerWB → List Mat →
    Option (List LayerWB × List Mat)
  | [], s => some ([], s)
  | l :: rest, s =>
    match matrix_read s with
    | none => none
    | some (mw, s1) =>
      if mw.rows = l.weights.rows ∧ mw.columns = l.weights.columns then
        match matrix_read s1 with
        | none => none
        | some (mb, s2) =>
          if mb.rows = l.biases.rows ∧ mb.columns = l.biases.columns then
            match mlp_read_weights rest s2 with
            | none => none
            | some (rs, s3) =>
              some (⟨matrix_copy l.weights mw, matrix_copy l.biases mb⟩ :: rs,
                s3)
          else none
      else none

/-- The fields of `struct DDPG` that `ddpg_save_policy` and
`ddpg_load_policy` interact with: the persisted actor and critic parameters
and the untouched target networks and replay memory. -/
structure DDPGPolicy where
  actor : List LayerWB
  critic : List LayerWB
  actorTarget : List LayerWB
  criticTarget : List LayerWB
  memory : Mat

/-- ddpg.c `ddpg_save_policy`: writes the actor's weight block followed by
the critic's weight block. -/
def ddpg_save_policy (d : DDPGPolicy) : List Mat :=
  mlp_write_weights d.actor ++ mlp_write_weights d.critic

/-- ddpg.c `ddpg_load_policy`: reads the actor block then the critic block
into the current agent; `none` models the `-1` return, `some` the `0`
return with the updated agent. -/
def ddpg_load_policy (d : DDPGPolicy) (s : List Mat) : Option DDPGPolicy :=
  match mlp_read_weights d.actor s with
  | none => none
  | some (na, s1) =>
    match mlp_read_weights d.critic s1 with
    | none => none
    | some (nc, _) => some { d with actor := na, critic := nc }

/-- Bit-identical matrices: same shape and equal data on every in-range
element (the C buffer holds exactly the in-range elements). -/
def matEq (A B : Mat) : Prop :=
  A.rows = B.rows ∧ A.columns = B.columns ∧
  ∀ i, i < A.rows → ∀ j, j < A.columns → A.data i j = B.data i j

/-- Shape agreement of two persisted layers (identical architecture). -/
def layerShapeEq (p q : LayerWB) : Prop :=
  p.weights.rows = q.weights.rows ∧ p.weights.columns = q.weights.columns ∧
  p.biases.rows = q.biases.rows ∧ p.biases.columns = q.biases.columns

/-- Every persisted matrix of the list is nonempty (`rows * columns > 0`),
as holds for any constructible network architecture. -/
def layersPositive (l : List LayerWB) : Prop :=
  ∀ p ∈ l, 0 < p.weights.rows * p.weights.columns ∧
    0 < p.biases.rows * p.biases.columns

/-- Bit-identical persisted layers: weights and biases pairwise `matEq`. -/
def layerDataEq (p q : LayerWB) : Prop :=
  matEq p.weights q.weights ∧ matEq p.biases q.biases

/-- Reading a written weight block back into layers of the same
architecture succeeds, consumes exactly the block, and reproduces the
written matrices bit-identically. -/
theorem mlp_read_weights_roundtrip :
    ∀ (src dst : List LayerWB) (s : List Mat),
      List.Forall₂ layerShapeEq src dst → layersPositive src →
      ∃ out, mlp_read_weights dst (mlp_write_weights src ++ s)
          = some (out, s) ∧
        List.Forall₂ layerDataEq out src := by
  intro src
  induction src with
  | nil =>
    intro dst s hshape _
    cases hshape
    exact ⟨[], rfl, List.Forall₂.nil⟩
  | cons p ps ih =>
    intro dst s hshape hpos
    cases hshape with
    | cons hpq hrest =>
      rename_i q qs
      have hposp := hpos p (List.mem_cons_self p ps)
      have hposs : layersPositive ps := fun x hx =>
        hpos x (List.mem_cons_of_mem p hx)
      obtain ⟨out, hread, hmat⟩ := ih qs s hrest hposs
      refine ⟨⟨matrix_copy q.weights p.weights,
        matrix_copy q.biases p.biases⟩ :: out, ?_, ?_⟩
      · show mlp_read_weights (q :: qs)
          (p.weights :: p.biases :: (mlp_write_weights ps ++ s)) = _
        have h1 : matrix_read
            (p.weights :: p.biases :: (mlp_write_weights ps ++ s))
            = some (p.weights, p.biases :: (mlp_write_weights ps ++ s)) := by
          rw [matrix_read, if_neg (by omega)]
        have h2 : matrix_read (p.biases :: (mlp_write_weights ps ++ s))
            = some (p.biases, mlp_write_weights ps ++ s) := by
          rw [matrix_read, if_neg (by omega)]
        simp only [mlp_read_weights, h1, h2, hread]
        rw [if_pos ⟨hpq.1, hpq.2.1⟩, if_pos ⟨hpq.2.2.1, hpq.2.2.2⟩]
      · refine List.Forall₂.cons ⟨?_, ?_⟩ hmat
        · exact ⟨hpq.1.symm, hpq.2.1.symm, fun i hi j hj => by
            simp only [matrix_copy]
            rw [if_pos ⟨hi, hj⟩]⟩
        · exact ⟨hpq.2.2.1.symm, hpq.2.2.2.symm, fun i hi j hj => by
            simp only [matrix_copy]
            rw [if_pos ⟨hi, hj⟩]⟩

/-- C8: `ddpg_save_policy` followed by `ddpg_load_policy` into an agent of
identical architecture (all parameter matrices nonempty) succeeds — both
calls return 0, modelled by the load returning `some` — and leaves the
second agent's actor and critic weights and biases bit-identical to the
first agent's, while its target networks and replay memory are untouched. -/
theorem ddpg_policy_roundtrip (d1 d2 : DDPGPolicy)
    (ha : List.Forall₂ layerShapeEq d1.actor d2.actor)
    (hc : List.Forall₂ layerShapeEq d1.critic d2.critic)
    (hpa : layersPositive d1.actor) (hpc : layersPositive d1.critic) :
    ∃ d3, ddpg_load_policy d2 (ddpg_save_policy d1) = some d3 ∧
      List.Forall₂ layerDataEq d3.actor d1.actor ∧
      List.Forall₂ layerDataEq d3.critic d1.critic ∧
      d3.actorTarget = d2.actorTarget ∧
      d3.criticTarget = d2.criticTarget ∧
      d3.memory = d2.memory := by
  obtain ⟨outA, hreadA, hmatA⟩ := mlp_read_weights_roundtrip d1.actor
    d2.actor (mlp_write_weights d1.critic) ha hpa
  obtain ⟨outC, hreadC, hmatC⟩ := mlp_read_weights_roundtrip d1.critic
    d2.critic [] hc hpc
  rw [List.append_nil] at hreadC
  refine ⟨{ d2 with actor := outA, critic := outC }, ?_, hmatA, hmatC,
    rfl, rfl, rfl⟩
  simp only [ddpg_load_policy, ddpg_save_policy, hreadA, hreadC]

/-- C8 witness: two single-layer agents of identical 1-by-1 architecture;
the round trip succeeds and reproduces the first agent's parameters. -/
theorem ddpg_policy_roundtrip_witness :
    ∃ d3, ddpg_load_policy
        ⟨[⟨⟨1, 1, fun _ _ => 10⟩, ⟨1, 1, fun _ _ => 11⟩⟩],
         [⟨⟨1, 1, fun _ _ => 12⟩, ⟨1, 1, fun _ _ => 13⟩⟩],
         [⟨⟨1, 1, fun _ _ => 14⟩, ⟨1, 1, fun _ _ => 15⟩⟩],
         [⟨⟨1, 1, fun _ _ => 16⟩, ⟨1, 1, fun _ _ => 17⟩⟩],
         ⟨2, 2, fun _ _ => 18⟩⟩
        (ddpg_save_policy
          ⟨[⟨⟨1, 1, fun _ _ => 1⟩, ⟨1, 1, fun _ _ => 2⟩⟩],
           [⟨⟨1, 1, fun _ _ => 3⟩, ⟨1, 1, fun _ _ => 4⟩⟩],
           [⟨⟨1, 1, fun _ _ => 5⟩, ⟨1, 1, fun _ _ => 6⟩⟩],
           [⟨⟨1, 1, fun _ _ => 7⟩, ⟨1, 1, fun _ _ => 8⟩⟩],
           ⟨2, 2, fun _ _ => 9⟩⟩)
        = some d3 ∧
      List.Forall₂ layerDataEq d3.actor
        [⟨⟨1, 1, fun _ _ => 1⟩, ⟨1, 1, fun _ _ => 2⟩⟩] ∧
      List.Forall₂ layerDataEq d3.critic
        [⟨⟨1, 1, fun _ _ => 3⟩, ⟨1, 1, fun _ _ => 4⟩⟩] ∧
      d3.actorTarget = [⟨⟨1, 1, fun _ _ => 14⟩, ⟨1, 1, fun _ _ => 15⟩⟩] ∧
      d3.criticTarget = [⟨⟨1, 1, fun _ _ => 16⟩, ⟨1, 1, fun _ _ => 17⟩⟩] ∧
      d3.memory = ⟨2, 2, fun _ _ => 18⟩ :=
  ddpg_policy_roundtrip
    ⟨[⟨⟨1, 1, fun _ _ => 1⟩, ⟨1, 1, fun _ _ => 2⟩⟩],
     [⟨⟨1, 1, fun _ _ => 3⟩, ⟨1, 1, fun _ _ => 4⟩⟩],
     [⟨⟨1, 1, fun _ _ => 5⟩, ⟨1, 1, fun _ _ => 6⟩⟩],
     [⟨⟨1, 1, fun _ _ => 7⟩, ⟨1, 1, fun _ _ => 8⟩⟩],
     ⟨2, 2, fun _ _ => 9⟩⟩
    ⟨[⟨⟨1, 1, fun _ _ => 10⟩, ⟨1, 1, fun _ _ => 11⟩⟩],
     [⟨⟨1, 1, fun _ _ => 12⟩, ⟨1, 1, fun _ _ => 13⟩⟩],
     [⟨⟨1, 1, fun _ _ => 14⟩, ⟨1, 1, fun _ _ => 15⟩⟩],
     [⟨⟨1, 1, fun _ _ => 16⟩, ⟨1, 1, fun _ _ => 17⟩⟩],
     ⟨2, 2, fun _ _ => 18⟩⟩
    (List.Forall₂.cons ⟨rfl, rfl, rfl, rfl⟩ List.Forall₂.nil)
    (List.Forall₂.cons ⟨rfl, rfl, rfl, rfl⟩ List.Forall₂.nil)
    (fun p hp => by
      cases hp with
      | head => exact ⟨Nat.one_pos, Nat.one_pos⟩
      | tail _ h => cases h)
    (fun p hp => by
      cases hp with
      | head => exact ⟨Nat.one_pos, Nat.one_pos⟩
      | tail _ h => cases h)

end DeepC
